import Mathlib

/-!
Shallow embedding of the two scripts of astral-sh/versions:
`scripts/insert-versions.py` (the Ledger Merger) and
`scripts/convert-cargo-dist-plan.py` (the Manifest Normalizer),
together with proofs settling the frozen claims about them.

External collaborators (the `json` module, the `httpx` client, the `re`
module, the clock and the filesystem) are modelled as oracles: a stdin
line is given as already parsed or known-unparseable, HTTP traffic is a
function from attempt number to a response, and the regular-expression
search of `extract_github_info` is a parameter.  Python strings are
modelled through their code-point sequences (`String.data`), which is
exactly how Python compares and slices them.
-/

/-- Model of a parsed JSON value as produced by `json.loads`.  Python
numbers are modelled as integers only; no claim exercises floats.
Objects are association lists with distinct keys, the shape `json.loads`
produces. -/
inductive Json where
  | null : Json
  | bool (b : Bool) : Json
  | num (n : Int) : Json
  | str (s : String) : Json
  | arr (xs : List Json) : Json
  | obj (kvs : List (String × Json)) : Json

/-- Model of a Python exception kind that the scripts can raise and do
not catch. -/
inductive PyErr where
  | typeError : PyErr
  | keyError : PyErr
  | indexError : PyErr
  | valueError : PyErr
  | attributeError : PyErr
deriving DecidableEq, Repr

/-- Lookup of a key in a JSON object, as `dict.get` does (returns
`none` when the key is absent). -/
def lookupKvs : List (String × Json) → String → Option Json
  | [], _ => none
  | (k, v) :: rest, key => if k = key then some v else lookupKvs rest key

/-- Model of `entry.get(key)` on a JSON value known to be an object, and
`none` when the value is not an object (Python `dict.get` would not even
exist there; callers that subscript instead use `subscriptKey`). -/
def Json.get? : Json → String → Option Json
  | .obj kvs, key => lookupKvs kvs key
  | _, _ => none

/-- Model of `v[key]` subscripting: `TypeError` when `v` is not an
object, `KeyError` when the key is absent. -/
def subscriptKey (v : Json) (key : String) : Except PyErr Json :=
  match v with
  | .obj kvs =>
    match lookupKvs kvs key with
    | some x => .ok x
    | none => .error .keyError
  | _ => .error .typeError

/-- Model of `v["version"]`. -/
def subscriptVersion (v : Json) : Except PyErr Json :=
  subscriptKey v "version"

/-- The value under the key "version" when it exists, `none` otherwise. -/
def versionOf (v : Json) : Option Json :=
  (subscriptVersion v).toOption

/-- The string under the key "version" when it exists and is a string. -/
def versionString (v : Json) : Option String :=
  match versionOf v with
  | some (.str s) => some s
  | _ => none

/-! ### Python string primitives over code-point sequences -/

/-- A single-quote character, used to build the exact Python message
strings without writing a quote character in the source of this file. -/
def quoteCh : String := String.mk [Char.ofNat 39]

/-- Whether the code-point list `s` has `p` as an initial segment;
`str.startswith` on code points. -/
def listStartsWith : List Char → List Char → Bool
  | _, [] => true
  | [], _ :: _ => false
  | a :: as, b :: bs => a = b && listStartsWith as bs

/-- Model of Python `s.startswith(p)`. -/
def pyStartsWith (s p : String) : Bool := listStartsWith s.data p.data

/-- Model of Python `s.endswith(p)`. -/
def pyEndsWith (s p : String) : Bool :=
  listStartsWith s.data.reverse p.data.reverse

/-- Model of the Python slice `s[n:]`. -/
def pyDrop (s : String) (n : Nat) : String := String.mk (s.data.drop n)

/-- Model of the Python slice `s[:-n]` for `n > 0` (empty result when
`n` is at least the length, exactly as in Python). -/
def pyDropRight (s : String) (n : Nat) : String :=
  String.mk (s.data.take (s.data.length - n))

/-- The characters Python `str.strip()` and `str.split()` treat as
whitespace (space, tab, newline, carriage return, vertical tab, form
feed; the rarer Unicode whitespace is not exercised by any claim). -/
def isPySpace (c : Char) : Bool :=
  c.toNat = 32 || c.toNat = 9 || c.toNat = 10 ||
    c.toNat = 13 || c.toNat = 11 || c.toNat = 12

/-- Model of Python `s.strip()`. -/
def pyStrip (s : String) : String :=
  String.mk (((s.data.dropWhile isPySpace).reverse.dropWhile isPySpace).reverse)

/-- Accumulator loop behind `pySplit`; `acc` holds the reversed current
token. -/
def splitWsAux : List Char → List Char → List String
  | [], [] => []
  | [], acc => [String.mk acc.reverse]
  | c :: rest, acc =>
    if isPySpace c then
      match acc with
      | [] => splitWsAux rest []
      | _ => String.mk acc.reverse :: splitWsAux rest []
    else splitWsAux rest (c :: acc)

/-- Model of Python `s.split()` (no separator argument): splits on runs
of whitespace and never yields empty tokens. -/
def pySplit (s : String) : List String := splitWsAux s.data []

/-! ### Comparison of strings and of `(platform, variant)` key pairs

Python compares strings lexicographically by code point and compares
tuples lexicographically componentwise; `list.sort(key=...)` is a
stable sort driven by that order. -/

/-- Strict lexicographic order on code-point lists, as Python string
`<`. -/
def strLtB : List Char → List Char → Bool
  | [], [] => false
  | [], _ :: _ => true
  | _ :: _, [] => false
  | a :: as, b :: bs => if a < b then true else if b < a then false else strLtB as bs

/-- Strict lexicographic order on `(platform, variant)` pairs, as
Python tuple `<` on pairs of strings. -/
def pairLtB (x y : String × String) : Bool :=
  if strLtB x.1.data y.1.data then true
  else if strLtB y.1.data x.1.data then false
  else strLtB x.2.data y.2.data

/-- Non-strict key order used to model the stable `list.sort`: an
element may stay before another exactly when its key is not greater. -/
def pairLeB (x y : String × String) : Bool := !(pairLtB y x)

/-! ### scripts/insert-versions.py -/

/-- REQUIRED_ARTIFACT_KEYS, enumerated in the alphabetical order that
`sorted` produces, so that `sorted(REQUIRED_ARTIFACT_KEYS - keys)` is
the filtration of this list. -/
def requiredArtifactKeysSorted : List String :=
  ["archive_format", "platform", "sha256", "url", "variant"]

/-- Membership in VALID_ARCHIVE_FORMATS.  A non-string value is never a
member of a set of strings. -/
def validArchiveFormat (v : Json) : Bool :=
  match v with
  | .str s => s = "tar.gz" || s = "tar.zst" || s = "zip"
  | _ => false

/-- Python `repr` of a JSON value, used by the `!r` conversion in the
invalid-archive-format message.  String escaping is elided (no claim
exercises a value containing a quote or backslash) and the list and
dict cases are abbreviated placeholders (no claim exercises them). -/
def pyRepr : Json → String
  | .str s => quoteCh ++ s ++ quoteCh
  | .num n => toString n
  | .bool true => "True"
  | .bool false => "False"
  | .null => "None"
  | .arr _ => "<list>"
  | .obj _ => "<dict>"

/-- Python `repr` of a sorted list of plain key names, as interpolated
into the missing-keys message. -/
def pyStrListRepr (l : List String) : String :=
  "[" ++ String.intercalate ", " (l.map (fun s => quoteCh ++ s ++ quoteCh)) ++ "]"

/-- The message for a missing or empty `version` field. -/
def msgVersion : String := "missing or empty " ++ quoteCh ++ "version" ++ quoteCh

/-- The message for a missing or empty `date` field. -/
def msgDate : String := "missing or empty " ++ quoteCh ++ "date" ++ quoteCh

/-- The message for a missing or empty `artifacts` field. -/
def msgArtifacts : String := "missing or empty " ++ quoteCh ++ "artifacts" ++ quoteCh

/-- The message for an artifact entry that is not an object. -/
def msgNotObject (i : Nat) : String :=
  "artifact[" ++ toString i ++ "]: not an object"

/-- The message naming the missing keys of artifact `i`. -/
def msgMissingKeys (i : Nat) (missing : List String) : String :=
  "artifact[" ++ toString i ++ "]: missing keys " ++ pyStrListRepr missing

/-- The message naming the offending archive_format value of artifact
`i`. -/
def msgInvalidFormat (i : Nat) (v : Json) : String :=
  "artifact[" ++ toString i ++ "]: invalid archive_format " ++ pyRepr v

/-- The errors contributed by the `version` field check of
`validate_version`. -/
def versionFieldErrors (kvs : List (String × Json)) : List String :=
  match lookupKvs kvs "version" with
  | some (.str s) => if s = "" then [msgVersion] else []
  | _ => [msgVersion]

/-- The errors contributed by the `date` field check of
`validate_version`. -/
def dateFieldErrors (kvs : List (String × Json)) : List String :=
  match lookupKvs kvs "date" with
  | some (.str s) => if s = "" then [msgDate] else []
  | _ => [msgDate]

/-- The loop body of `validate_version` over `enumerate(artifacts)`:
a non-object is reported as such; an artifact with missing keys is
reported with the sorted missing keys and then skipped (`continue`), so
its archive_format is not inspected; otherwise an invalid
archive_format is reported with its repr. -/
def artifactErrors (i : Nat) (a : Json) : List String :=
  match a with
  | .obj kvs =>
    match requiredArtifactKeysSorted.filter (fun k => (lookupKvs kvs k).isNone) with
    | [] =>
      match lookupKvs kvs "archive_format" with
      | some v => if validArchiveFormat v then [] else [msgInvalidFormat i v]
      | none => []
    | missing => [msgMissingKeys i missing]
  | _ => [msgNotObject i]

/-- The artifact loop of `validate_version`, over `enumerate`. -/
def artifactListErrors (arts : List Json) : List String :=
  arts.enum.flatMap (fun p => artifactErrors p.1 p.2)

/-- Model of `validate_version`.  On a non-object entry Python raises
`AttributeError` at `entry.get` (uncaught by the script); on an object
it returns the aggregated error-message list, empty when the entry is
valid.  The artifacts check returns early, exactly as in the source. -/
def validate_version (entry : Json) : Except PyErr (List String) :=
  match entry with
  | .obj kvs =>
    let errs := versionFieldErrors kvs ++ dateFieldErrors kvs
    match lookupKvs kvs "artifacts" with
    | some (.arr []) => .ok (errs ++ [msgArtifacts])
    | some (.arr arts) => .ok (errs ++ artifactListErrors arts)
    | _ => .ok (errs ++ [msgArtifacts])
  | _ => .error .attributeError

/-- The `(a["platform"], a["variant"])` sort key of an artifact.
Within validated records both keys exist; a missing or non-string value
(where Python would raise inside `list.sort`) is totalised to the empty
string, a case no claim exercises. -/
def artKeyJson (a : Json) : String × String :=
  (match a.get? "platform" with | some (.str s) => s | _ => "",
   match a.get? "variant" with | some (.str s) => s | _ => "")

/-- The may-stay-before relation of the stable sort of
`version["artifacts"].sort(key=lambda a: (a["platform"], a["variant"]))`. -/
def artJsonLe (a b : Json) : Bool := pairLeB (artKeyJson a) (artKeyJson b)

/-- The sort relation as a decidable proposition, for
`List.insertionSort`. -/
def artJsonRel (a b : Json) : Prop := artJsonLe a b = true

instance : DecidableRel artJsonRel :=
  fun a b => inferInstanceAs (Decidable (artJsonLe a b = true))

/-- Model of the in-place `version["artifacts"].sort(...)`: a stable
sort of the artifact list by `(platform, variant)`.  Both
`List.insertionSort` and the CPython sort are stable comparison sorts,
so they agree on every input on which Python does not raise. -/
def sortArtifactsJson (arts : List Json) : List Json :=
  List.insertionSort artJsonRel arts

/-- Replacement of the value stored under a key of an object,
modelling that the in-place list sort updates the dict entry. -/
def setKvs : List (String × Json) → String → Json → List (String × Json)
  | [], _, _ => []
  | (k, v) :: rest, key, val =>
    if k = key then (k, val) :: rest else (k, v) :: setKvs rest key val

/-- The per-record artifact normalisation of `main` (line 105-107):
sorts the `artifacts` list of a version entry in place.  `main` only
reaches this for validated entries, where `artifacts` is a non-empty
array; other shapes are returned unchanged. -/
def sortEntryArtifacts (j : Json) : Json :=
  match j with
  | .obj kvs =>
    match lookupKvs kvs "artifacts" with
    | some (.arr arts) => .obj (setKvs kvs "artifacts" (.arr (sortArtifactsJson arts)))
    | _ => j
  | _ => j

/-- A line of stdin or of the ledger file, after stripping, as the
`json` module sees it: blank, unparseable, or a parsed value. -/
inductive Line where
  | blank : Line
  | invalid : Line
  | value (j : Json) : Line

/-- The failure modes of the stdin parse-and-validate loop of `main`:
no input at all, a JSON-unparseable line, a schema violation, or an
uncaught Python exception out of `validate_version`. -/
inductive MergeError where
  | noInput : MergeError
  | malformed (lineno : Nat) : MergeError
  | schemaViolation (lineno : Nat) (errors : List String) : MergeError
  | validateCrash (lineno : Nat) (e : PyErr) : MergeError
deriving DecidableEq

/-- The stdin loop of `main` (lines 80-99), carrying the 1-based line
number: a blank line is skipped, an unparseable line aborts, a record
with validation errors aborts, otherwise the record is collected. -/
def parseStdinGo : Nat → List Line → Except MergeError (List Json)
  | _, [] => .ok []
  | lineno, .blank :: rest => parseStdinGo (lineno + 1) rest
  | lineno, .invalid :: _ => .error (.malformed lineno)
  | lineno, .value j :: rest =>
    match validate_version j with
    | .error e => .error (.validateCrash lineno e)
    | .ok [] =>
      match parseStdinGo (lineno + 1) rest with
      | .error e => .error e
      | .ok tail => .ok (j :: tail)
    | .ok errs => .error (.schemaViolation lineno errs)

/-- The whole stdin phase of `main`: the loop, then the
`if not new_versions` empty-input check (lines 101-103). -/
def parseStdin (lines : List Line) : Except MergeError (List Json) :=
  match parseStdinGo 1 lines with
  | .ok [] => .error .noInput
  | r => r

/-- The tolerant read of the existing ledger (lines 119-129): blank
lines and lines raising `JSONDecodeError` are skipped, every parsed
value is kept as-is. -/
def readExisting (ls : List Line) : List Json :=
  ls.filterMap (fun l => match l with | .value j => some j | _ => none)

/-- Whether the JSON value `jv` is a member of a set of strings, as the
Python `in` test `v["version"] not in incoming_version_strings`: only a
string can equal a string. -/
def jvMem (jv : Json) (inc : List String) : Bool :=
  match jv with
  | .str s => decide (s ∈ inc)
  | _ => false

/-- The set `{v["version"] for v in new_versions}` (line 132).  In
`main` every collected record is validated, hence an object whose
`version` is a non-empty string; `filterMap` is the total rendering of
that comprehension. -/
def incomingVersionStrings (new : List Json) : List String :=
  new.filterMap versionString

/-- The deduplication comprehension of line 133,
`[v for v in existing if v["version"] not in incoming_version_strings]`:
subscripting a structurally invalid record raises (`TypeError` or
`KeyError`), which the script does not catch. -/
def dedupExisting (inc : List String) : List Json → Except PyErr (List Json)
  | [] => .ok []
  | v :: rest =>
    match subscriptVersion v with
    | .error e => .error e
    | .ok jv =>
      match dedupExisting inc rest with
      | .error e => .error e
      | .ok tail => .ok (if jvMem jv inc then tail else v :: tail)

/-- The retain-predicate realised by `dedupExisting` on records whose
subscripting succeeds. -/
def keptByDedup (inc : List String) (v : Json) : Bool :=
  match subscriptVersion v with
  | .ok jv => !(jvMem jv inc)
  | .error _ => true

/-- The merge phase of `main` (lines 105-136) on already-collected
records: sort the artifacts of each incoming record, drop the existing
records whose version collides with an incoming version string, and
prepend the incoming records. -/
def mergeRun (new existing : List Json) : Except PyErr (List Json) :=
  match dedupExisting (incomingVersionStrings (new.map sortEntryArtifacts)) existing with
  | .error e => .error e
  | .ok ded => .ok (new.map sortEntryArtifacts ++ ded)

/-- Model of `main` of insert-versions.py as a function from the stdin
lines and the ledger file (absent or its lines) to the exit code and
the ledger file afterwards.  Every error exit, including an uncaught
exception, leaves the file untouched, because the file is only opened
for writing at line 139, after all of them; a successful run rewrites
it with one value per line. -/
def mainRun (stdin : List Line) (file : Option (List Line)) :
    Nat × Option (List Line) :=
  match parseStdin stdin with
  | .error _ => (1, file)
  | .ok newVersions =>
    match mergeRun newVersions (readExisting (file.getD [])) with
    | .error _ => (1, file)
    | .ok merged => (0, some (merged.map Line.value))

/-- Adjacent-pair sortedness under a Boolean relation. -/
def isSortedByB (le : α → α → Bool) : List α → Bool
  | [] => true
  | [_] => true
  | a :: b :: rest => le a b && isSortedByB le (b :: rest)

/-- Whether the `artifacts` field of a record, when present as an
array, is sorted by `(platform, variant)` ascending. -/
def artifactsSortedB (j : Json) : Bool :=
  match j with
  | .obj kvs =>
    match lookupKvs kvs "artifacts" with
    | some (.arr arts) => isSortedByB artJsonLe arts
    | _ => true
  | _ => true

/-! ### scripts/convert-cargo-dist-plan.py -/

/-- An HTTP response as the model sees it: a status code and a body
text.  Transport failures (`httpx.RequestError`), which the script does
not catch, are outside every claim and not modelled. -/
structure HttpResponse where
  status : Nat
  body : String
deriving DecidableEq, Repr

/-- The outcome of `fetch_sha256`: a checksum string, `None`, or an
uncaught `IndexError` from `content.split()[0]` on an empty token
list. -/
inductive FetchResult where
  | val (s : String) : FetchResult
  | noval : FetchResult
  | idxErr : FetchResult
deriving DecidableEq, Repr

/-- Whether `response.raise_for_status()` raises: httpx raises
`HTTPStatusError` for every non-2xx status. -/
def raisesForStatus (code : Nat) : Bool := decide (code < 200 || 300 ≤ code)

/-- The retry loop of `fetch_sha256` from a given attempt number, with
the remaining loop iterations as fuel (the source iterates
`range(1, 4)`).  Returns the result together with the list of
`time.sleep(2 ** attempt)` delays performed, in order.  A 404 returns
`None` at once; a 2xx body is stripped and split, its first token
returned (`IndexError` when there is none); an `HTTPStatusError` with
status in {502, 503, 504} and attempt < 3 sleeps and retries; any other
`HTTPStatusError` returns `None`. -/
def fetchFrom (resp : Nat → HttpResponse) : Nat → Nat → FetchResult × List Nat
  | _, 0 => (.noval, [])
  | attempt, fuel + 1 =>
    let r := resp attempt
    if r.status = 404 then (.noval, [])
    else if raisesForStatus r.status then
      if (r.status = 502 ∨ r.status = 503 ∨ r.status = 504) ∧ attempt < 3 then
        let rec2 := fetchFrom resp (attempt + 1) fuel
        (rec2.1, 2 ^ attempt :: rec2.2)
      else (.noval, [])
    else
      match pySplit (pyStrip r.body) with
      | [] => (.idxErr, [])
      | t :: _ => (.val t, [])

/-- Model of `fetch_sha256` for one URL, the successive responses of
`client.get` being given by `resp` indexed by attempt number. -/
def fetch_sha256 (resp : Nat → HttpResponse) : FetchResult × List Nat :=
  fetchFrom resp 1 3

/-- Model of `get_archive_format`. -/
def get_archive_format (filename : String) : String :=
  if pyEndsWith filename ".tar.gz" then "tar.gz"
  else if pyEndsWith filename ".tar.zst" then "tar.zst"
  else if pyEndsWith filename ".zip" then "zip"
  else "unknown"

/-- A normalised artifact record as built by `extract_version_info`. -/
structure Artifact where
  platform : String
  variant : String
  url : String
  archive_format : String
  sha256 : String
deriving DecidableEq, Repr

/-- One release entry of the cargo-dist manifest. -/
structure Release where
  app_name : String
  artifacts : List String
deriving DecidableEq, Repr

/-- The cargo-dist manifest, restricted to the fields the script
reads.  `announcement_github_body` is optional in the manifest. -/
structure Manifest where
  announcement_tag : String
  announcement_github_body : Option String
  releases : List Release
deriving DecidableEq, Repr

/-- Model of `extract_github_info`.  The `re.search` for the download
URL pattern is the oracle `search`, returning the two captured groups
when the pattern matches.  With no releases the script raises
`ValueError`; otherwise the first release fixes the app name, the body
match (when the body is present and matches) fixes org and repo, and
the fallback is the fixed org "astral-sh" with the app name as repo. -/
def extract_github_info (search : String → Option (String × String))
    (m : Manifest) : Except PyErr (String × String × String) :=
  match m.releases with
  | [] => .error .valueError
  | release :: _ =>
    let app_name := release.app_name
    match m.announcement_github_body with
    | some body =>
      match search body with
      | some (org, repo) => .ok (org, repo, app_name)
      | none => .ok ("astral-sh", app_name, app_name)
    | none => .ok ("astral-sh", app_name, app_name)

/-- The identity data threaded through the artifact loop of
`extract_version_info`. -/
structure ExtractCtx where
  app_name : String
  github_org : String
  github_repo : String
  version : String
deriving DecidableEq, Repr

/-- The release-asset download URL for an artifact name. -/
def downloadUrl (ctx : ExtractCtx) (name : String) : String :=
  "https://github.com/" ++ ctx.github_org ++ "/" ++ ctx.github_repo ++
    "/releases/download/" ++ ctx.version ++ "/" ++ name

/-- The skip condition at the top of the artifact loop of
`extract_version_info` (lines 92-101). -/
def artifactSkipped (app_name name : String) : Bool :=
  !(pyStartsWith name (app_name ++ "-")) ||
    pyEndsWith name ".sha256" ||
    name = "source.tar.gz" ||
    name = "source.tar.gz.sha256" ||
    name = "sha256.sum" ||
    pyEndsWith name ".sh" ||
    pyEndsWith name ".ps1"

/-- The platform label derived from an artifact name (lines 103-109):
strip the `<app_name>-` code-point count in front and the recognised
extension behind; `none` means the `else: continue` branch. -/
def platformOf (app_name name : String) : Option String :=
  let plen := app_name.data.length + 1
  if pyEndsWith name ".tar.gz" then some (pyDropRight (pyDrop name plen) 7)
  else if pyEndsWith name ".zip" then some (pyDropRight (pyDrop name plen) 4)
  else none

/-- The warning printed when a checksum could not be fetched. -/
def shaWarning (name : String) : String :=
  "Warning: Could not fetch SHA256 for " ++ name

/-- The artifact loop of `extract_version_info` (lines 91-126) over the
artifact names of the selected release.  `client` gives, per URL and
per attempt, the HTTP response.  Produces the collected artifact
records and the warnings, in order, or propagates the uncaught
`IndexError` out of `fetch_sha256`.  The `if not sha256` test of the
source also skips an empty checksum string, which is mirrored even
though `split()` can never produce one. -/
def processArtifacts (ctx : ExtractCtx) (client : String → Nat → HttpResponse) :
    List String → Except PyErr (List Artifact × List String)
  | [] => .ok ([], [])
  | name :: rest =>
    if artifactSkipped ctx.app_name name then processArtifacts ctx client rest
    else
      match platformOf ctx.app_name name with
      | none => processArtifacts ctx client rest
      | some platform =>
        match fetch_sha256 (client (downloadUrl ctx name ++ ".sha256")) with
        | (.idxErr, _) => .error .indexError
        | (.noval, _) =>
          match processArtifacts ctx client rest with
          | .error e => .error e
          | .ok (arts, warns) => .ok (arts, shaWarning name :: warns)
        | (.val s, _) =>
          if s = "" then
            match processArtifacts ctx client rest with
            | .error e => .error e
            | .ok (arts, warns) => .ok (arts, shaWarning name :: warns)
          else
            match processArtifacts ctx client rest with
            | .error e => .error e
            | .ok (arts, warns) =>
              .ok ({ platform := platform, variant := "default",
                     url := downloadUrl ctx name,
                     archive_format := get_archive_format name,
                     sha256 := s } :: arts, warns)

/-- The `(platform, variant)` key of a typed artifact record. -/
def artKey (a : Artifact) : String × String := (a.platform, a.variant)

/-- The may-stay-before relation of the final
`artifacts_data.sort(key=lambda x: (x["platform"], x["variant"]))`. -/
def artifactRel (a b : Artifact) : Prop := pairLeB (artKey a) (artKey b) = true

instance : DecidableRel artifactRel :=
  fun a b => inferInstanceAs (Decidable (pairLeB (artKey a) (artKey b) = true))

/-- The stable sort of the collected artifact records (line 129). -/
def sortArtifactsData (arts : List Artifact) : List Artifact :=
  List.insertionSort artifactRel arts

/-- The version record `extract_version_info` returns. -/
structure VersionInfo where
  version : String
  date : String
  artifacts : List Artifact
deriving DecidableEq, Repr

/-- Model of `extract_version_info`: version from the announcement tag,
identity from `extract_github_info`, the artifact loop run on the first
release whose app name matches (the loop breaks there; the first
release always matches when one exists), artifacts sorted by
`(platform, variant)`, date stamped with the current UTC time given as
`now`.  The warnings are returned alongside. -/
def extract_version_info (search : String → Option (String × String))
    (client : String → Nat → HttpResponse) (now : String) (m : Manifest) :
    Except PyErr (VersionInfo × List String) :=
  match extract_github_info search m with
  | .error e => .error e
  | .ok (org, repo, app_name) =>
    let ctx : ExtractCtx :=
      { app_name := app_name, github_org := org, github_repo := repo,
        version := m.announcement_tag }
    let looped :=
      match m.releases.find? (fun r => r.app_name == app_name) with
      | some rel => processArtifacts ctx client rel.artifacts
      | none => .ok ([], [])
    match looped with
    | .error e => .error e
    | .ok (arts, warns) =>
      .ok ({ version := m.announcement_tag, date := now,
             artifacts := sortArtifactsData arts }, warns)

/-! ### Order lemmas for the sort key -/

theorem strLtB_asymm : ∀ a b, strLtB a b = true → strLtB b a = false
  | [], [] => by simp [strLtB]
  | [], _ :: _ => by simp [strLtB]
  | _ :: _, [] => by simp [strLtB]
  | a :: as, b :: bs => by
    simp only [strLtB]
    rcases lt_trichotomy a b with h | h | h
    · simp [h, lt_asymm h]
    · subst h
      simp only [lt_self_iff_false, if_false]
      exact fun hh => strLtB_asymm as bs hh
    · simp [h, lt_asymm h]

theorem strLtB_trans : ∀ a b c, strLtB a b = true → strLtB b c = true →
    strLtB a c = true
  | _, [], [] => by simp [strLtB]
  | _, _ :: _, [] => by simp [strLtB]
  | [], [], _ :: _ => by simp [strLtB]
  | [], _ :: _, _ :: _ => by simp [strLtB]
  | _ :: _, [], _ :: _ => by simp [strLtB]
  | a :: as, b :: bs, c :: cs => by
    simp only [strLtB]
    rcases lt_trichotomy a b with hab | hab | hab
    · rcases lt_trichotomy b c with hbc | hbc | hbc
      · simp [hab, hbc, lt_trans hab hbc]
      · subst hbc
        simp [hab]
      · simp [hbc, lt_asymm hbc]
    · subst hab
      rcases lt_trichotomy a c with hac | hac | hac
      · simp [hac]
      · subst hac
        simp only [lt_self_iff_false, if_false]
        exact fun h1 h2 => strLtB_trans as bs cs h1 h2
      · simp [hac, lt_asymm hac]
    · simp [hab, lt_asymm hab]

theorem strLtB_eq_of_not : ∀ a b, strLtB a b = false → strLtB b a = false → a = b
  | [], [] => by intros; rfl
  | [], _ :: _ => by simp [strLtB]
  | _ :: _, [] => by intro _ h; simp [strLtB] at h
  | a :: as, b :: bs => by
    simp only [strLtB]
    rcases lt_trichotomy a b with h | h | h
    · simp [h]
    · subst h
      simp only [lt_self_iff_false, if_false]
      intro h1 h2
      rw [strLtB_eq_of_not as bs h1 h2]
    · simp [h, lt_asymm h]

theorem pairLtB_asymm {x y : String × String} (h : pairLtB x y = true) :
    pairLtB y x = false := by
  unfold pairLtB at *
  by_cases h1 : strLtB x.1.data y.1.data = true
  · simp [h1, strLtB_asymm _ _ h1]
  · rw [Bool.not_eq_true] at h1
    by_cases h2 : strLtB y.1.data x.1.data = true
    · simp [h1, h2] at h
    · rw [Bool.not_eq_true] at h2
      simp only [h1, h2, if_false] at h ⊢
      exact strLtB_asymm _ _ h

theorem pairLtB_trans {x y z : String × String} (h1 : pairLtB x y = true)
    (h2 : pairLtB y z = true) : pairLtB x z = true := by
  unfold pairLtB at *
  by_cases hxy : strLtB x.1.data y.1.data = true
  · by_cases hyz : strLtB y.1.data z.1.data = true
    · simp [strLtB_trans _ _ _ hxy hyz]
    · rw [Bool.not_eq_true] at hyz
      by_cases hzy : strLtB z.1.data y.1.data = true
      · simp [hyz, hzy] at h2
      · rw [Bool.not_eq_true] at hzy
        have hd := strLtB_eq_of_not _ _ hyz hzy
        rw [hd] at hxy
        simp [hxy]
  · rw [Bool.not_eq_true] at hxy
    by_cases hyx : strLtB y.1.data x.1.data = true
    · simp [hxy, hyx] at h1
    · rw [Bool.not_eq_true] at hyx
      have hd := strLtB_eq_of_not _ _ hxy hyx
      simp only [hxy, hyx, if_false] at h1
      by_cases hyz : strLtB y.1.data z.1.data = true
      · rw [← hd] at hyz
        simp [hyz]
      · rw [Bool.not_eq_true] at hyz
        by_cases hzy : strLtB z.1.data y.1.data = true
        · simp [hyz, hzy] at h2
        · rw [Bool.not_eq_true] at hzy
          simp only [hyz, hzy, if_false] at h2
          have hd2 : strLtB x.1.data z.1.data = false := by rw [hd]; exact hyz
          have hd3 : strLtB z.1.data x.1.data = false := by rw [hd]; exact hzy
          simp only [hd2, hd3, if_false]
          exact strLtB_trans _ _ _ h1 h2

theorem pairLtB_eq_of_not {x y : String × String} (h1 : pairLtB x y = false)
    (h2 : pairLtB y x = false) : x = y := by
  unfold pairLtB at h1 h2
  by_cases hxy : strLtB x.1.data y.1.data = true
  · simp [hxy] at h1
  · rw [Bool.not_eq_true] at hxy
    by_cases hyx : strLtB y.1.data x.1.data = true
    · simp [hyx] at h2
    · rw [Bool.not_eq_true] at hyx
      simp only [hxy, hyx, if_false] at h1 h2
      have e1 : x.1 = y.1 := String.ext (strLtB_eq_of_not _ _ hxy hyx)
      have e2 : x.2 = y.2 := String.ext (strLtB_eq_of_not _ _ h1 h2)
      exact Prod.ext e1 e2

theorem pairLeB_total (x y : String × String) :
    pairLeB x y = true ∨ pairLeB y x = true := by
  unfold pairLeB
  by_cases h : pairLtB y x = true
  · right
    simp [pairLtB_asymm h]
  · left
    rw [Bool.not_eq_true] at h
    simp [h]

theorem pairLeB_trans {x y z : String × String} (h1 : pairLeB x y = true)
    (h2 : pairLeB y z = true) : pairLeB x z = true := by
  unfold pairLeB at *
  rw [Bool.not_eq_true'] at h1 h2 ⊢
  by_cases hzx : pairLtB z x = true
  · by_cases hxy : pairLtB x y = true
    · have hzy := pairLtB_trans hzx hxy
      simp [hzy] at h2
    · rw [Bool.not_eq_true] at hxy
      have he := pairLtB_eq_of_not hxy h1
      rw [he] at hzx
      simp [hzx] at h2
  · rw [Bool.not_eq_true] at hzx
    exact hzx

instance : IsTotal Json artJsonRel :=
  ⟨fun a b => pairLeB_total (artKeyJson a) (artKeyJson b)⟩

instance : IsTrans Json artJsonRel :=
  ⟨fun _ _ _ h1 h2 => pairLeB_trans h1 h2⟩

instance : IsTotal Artifact artifactRel :=
  ⟨fun a b => pairLeB_total (artKey a) (artKey b)⟩

instance : IsTrans Artifact artifactRel :=
  ⟨fun _ _ _ h1 h2 => pairLeB_trans h1 h2⟩

theorem isSortedByB_of_pairwise {le : α → α → Bool} :
    ∀ {l : List α}, l.Pairwise (fun a b => le a b = true) →
      isSortedByB le l = true
  | [], _ => rfl
  | [_], _ => rfl
  | a :: b :: rest, h => by
    simp only [isSortedByB, Bool.and_eq_true]
    refine ⟨(List.pairwise_cons.mp h).1 b (List.mem_cons_self b rest), ?_⟩
    exact isSortedByB_of_pairwise (List.pairwise_cons.mp h).2

theorem sortArtifactsJson_sortedB (arts : List Json) :
    isSortedByB artJsonLe (sortArtifactsJson arts) = true :=
  isSortedByB_of_pairwise (List.sorted_insertionSort artJsonRel arts)

/-! ### Structural lemmas about the merge pipeline -/

theorem lookupKvs_setKvs_ne (kvs : List (String × Json)) (k k2 : String)
    (v : Json) (h : k2 ≠ k) :
    lookupKvs (setKvs kvs k v) k2 = lookupKvs kvs k2 := by
  induction kvs with
  | nil => rfl
  | cons p rest ih =>
    obtain ⟨a, b⟩ := p
    by_cases ha : a = k
    · subst ha
      simp only [setKvs, if_pos rfl]
      simp only [lookupKvs]
      rw [if_neg (fun hh : a = k2 => h (hh ▸ rfl)), if_neg (fun hh : a = k2 => h (hh ▸ rfl))]
    · simp only [setKvs, if_neg ha, lookupKvs]
      by_cases ha2 : a = k2
      · rw [if_pos ha2, if_pos ha2]
      · rw [if_neg ha2, if_neg ha2, ih]

theorem lookupKvs_setKvs_self (kvs : List (String × Json)) (k : String)
    (v : Json) (h : (lookupKvs kvs k).isSome) :
    lookupKvs (setKvs kvs k v) k = some v := by
  induction kvs with
  | nil => simp [lookupKvs] at h
  | cons p rest ih =>
    obtain ⟨a, b⟩ := p
    by_cases ha : a = k
    · subst ha
      simp [setKvs, lookupKvs]
    · simp only [setKvs, if_neg ha, lookupKvs, if_neg ha] at h ⊢
      exact ih h

theorem subscriptVersion_sortEntryArtifacts (j : Json) :
    subscriptVersion (sortEntryArtifacts j) = subscriptVersion j := by
  cases j with
  | obj kvs =>
    simp only [sortEntryArtifacts]
    cases hl : lookupKvs kvs "artifacts" with
    | none => rfl
    | some x =>
      cases x with
      | arr arts =>
        simp only [subscriptVersion, subscriptKey]
        rw [lookupKvs_setKvs_ne kvs "artifacts" "version" _ (by decide)]
      | null => rfl
      | bool b => rfl
      | num n => rfl
      | str s => rfl
      | obj o => rfl
  | null => rfl
  | bool b => rfl
  | num n => rfl
  | str s => rfl
  | arr xs => rfl

theorem versionOf_sortEntryArtifacts (j : Json) :
    versionOf (sortEntryArtifacts j) = versionOf j := by
  unfold versionOf
  rw [subscriptVersion_sortEntryArtifacts]

theorem versionString_sortEntryArtifacts (j : Json) :
    versionString (sortEntryArtifacts j) = versionString j := by
  unfold versionString
  rw [versionOf_sortEntryArtifacts]

theorem artifactsSortedB_sortEntryArtifacts (j : Json) :
    artifactsSortedB (sortEntryArtifacts j) = true := by
  cases j with
  | obj kvs =>
    simp only [sortEntryArtifacts]
    cases hl : lookupKvs kvs "artifacts" with
    | none => simp [artifactsSortedB, hl]
    | some x =>
      cases x with
      | arr arts =>
        simp only [artifactsSortedB]
        rw [lookupKvs_setKvs_self kvs "artifacts" _ (by rw [hl]; rfl)]
        exact sortArtifactsJson_sortedB arts
      | null => simp [artifactsSortedB, hl]
      | bool b => simp [artifactsSortedB, hl]
      | num n => simp [artifactsSortedB, hl]
      | str s => simp [artifactsSortedB, hl]
      | obj o => simp [artifactsSortedB, hl]
  | null => rfl
  | bool b => rfl
  | num n => rfl
  | str s => rfl
  | arr xs => rfl

theorem dedupExisting_ok (inc : List String) :
    ∀ ex : List Json, (∀ v ∈ ex, (versionOf v).isSome) →
      dedupExisting inc ex = .ok (ex.filter (keptByDedup inc))
  | [], _ => rfl
  | v :: rest, h => by
    have hv : (versionOf v).isSome := h v (List.mem_cons_self v rest)
    have hrest := dedupExisting_ok inc rest
      (fun x hx => h x (List.mem_cons_of_mem v hx))
    unfold versionOf at hv
    cases hs : subscriptVersion v with
    | error e => rw [hs] at hv; simp [Except.toOption] at hv
    | ok jv =>
      simp only [dedupExisting, hs, hrest]
      cases hm : jvMem jv inc with
      | true => simp [List.filter_cons, keptByDedup, hs, hm]
      | false => simp [List.filter_cons, keptByDedup, hs, hm]

theorem dedupExisting_ok_inv (inc : List String) :
    ∀ {ex d : List Json}, dedupExisting inc ex = .ok d →
      d = ex.filter (keptByDedup inc) := by
  intro ex
  induction ex with
  | nil =>
    intro d h
    simp only [dedupExisting] at h
    cases h
    rfl
  | cons v rest ih =>
    intro d h
    simp only [dedupExisting] at h
    cases hs : subscriptVersion v with
    | error e => rw [hs] at h; cases h
    | ok jv =>
      rw [hs] at h
      cases hr : dedupExisting inc rest with
      | error e => rw [hr] at h; cases h
      | ok tail =>
        rw [hr] at h
        cases h
        rw [ih hr]
        cases hm : jvMem jv inc with
        | true => simp [List.filter_cons, keptByDedup, hs, hm]
        | false => simp [List.filter_cons, keptByDedup, hs, hm]

theorem incomingVersionStrings_map_sort (new : List Json) :
    incomingVersionStrings (new.map sortEntryArtifacts) =
      new.filterMap versionString := by
  induction new with
  | nil => rfl
  | cons v rest ih =>
    simp only [incomingVersionStrings, List.map_cons, List.filterMap_cons,
      versionString_sortEntryArtifacts] at ih ⊢
    cases versionString v with
    | none => exact ih
    | some s => rw [ih]

theorem mergeRun_ok (new existing : List Json)
    (hex : ∀ v ∈ existing, (versionOf v).isSome) :
    mergeRun new existing =
      .ok (new.map sortEntryArtifacts ++
        existing.filter (keptByDedup (new.filterMap versionString))) := by
  unfold mergeRun
  rw [incomingVersionStrings_map_sort, dedupExisting_ok _ _ hex]

theorem mergeRun_ok_inv {new existing out : List Json}
    (h : mergeRun new existing = .ok out) :
    out = new.map sortEntryArtifacts ++
      existing.filter (keptByDedup (new.filterMap versionString)) := by
  unfold mergeRun at h
  rw [incomingVersionStrings_map_sort] at h
  cases hd : dedupExisting (new.filterMap versionString) existing with
  | error e => rw [hd] at h; cases h
  | ok ded =>
    rw [hd] at h
    cases h
    rw [dedupExisting_ok_inv _ hd]

theorem subscriptVersion_of_versionString {v : Json} {s : String}
    (h : versionString v = some s) : subscriptVersion v = .ok (.str s) := by
  unfold versionString versionOf at h
  cases hsub : subscriptVersion v with
  | error e => rw [hsub] at h; simp [Except.toOption] at h
  | ok jv =>
    rw [hsub] at h
    cases jv with
    | str t =>
      simp only [Except.toOption] at h
      cases h
      rfl
    | null => simp [Except.toOption] at h
    | bool b => simp [Except.toOption] at h
    | num n => simp [Except.toOption] at h
    | arr xs => simp [Except.toOption] at h
    | obj kvs => simp [Except.toOption] at h

theorem keptByDedup_versionString {inc : List String} {v : Json} {s : String}
    (hk : keptByDedup inc v = true) (hs : s ∈ inc) :
    versionString v ≠ some s := by
  intro hv
  have hsub := subscriptVersion_of_versionString hv
  unfold keptByDedup at hk
  rw [hsub] at hk
  simp [jvMem] at hk
  exact hk hs

/-! ### Concrete fixtures for the closed theorems -/

/-- A schema-valid artifact record. -/
def artLinux : Json := .obj
  [("platform", .str "linux"), ("variant", .str "default"),
   ("url", .str "https://x/y"), ("archive_format", .str "tar.gz"),
   ("sha256", .str "abc")]

/-- A schema-valid version record with version 1.0.0. -/
def recA : Json := .obj
  [("version", .str "1.0.0"), ("date", .str "2024-01-01"),
   ("artifacts", .arr [artLinux])]

/-- A schema-valid version record with version 2.0.0. -/
def recB : Json := .obj
  [("version", .str "2.0.0"), ("date", .str "2024-02-01"),
   ("artifacts", .arr [artLinux])]

/-- An artifact whose platform sorts late. -/
def artBbb : Json := .obj
  [("platform", .str "bbb"), ("variant", .str "default"),
   ("url", .str "u1"), ("archive_format", .str "zip"), ("sha256", .str "s1")]

/-- An artifact whose platform sorts early. -/
def artAaa : Json := .obj
  [("platform", .str "aaa"), ("variant", .str "default"),
   ("url", .str "u2"), ("archive_format", .str "zip"), ("sha256", .str "s2")]

/-- A version record whose artifacts are not sorted by
`(platform, variant)`. -/
def recUnsorted : Json := .obj
  [("version", .str "0.9.0"), ("date", .str "2023-01-01"),
   ("artifacts", .arr [artBbb, artAaa])]

/-- An older schema-valid record that shares the version string 1.0.0
with recA. -/
def recAold : Json := .obj
  [("version", .str "1.0.0"), ("date", .str "2020-01-01"),
   ("artifacts", .arr [artAaa])]

/-- The merged ledger of a successful merge, and the empty list on an
uncaught exception; used to state closed counterexamples. -/
def mergeOut (new existing : List Json) : List Json :=
  match mergeRun new existing with
  | .ok l => l
  | .error _ => []

/-! ### Claims C1-C4 -/

/-- C1 counterexample: a batch of two schema-valid incoming records
carrying the same version string merges into the empty ledger (whose
version strings are vacuously unique) as two records that share the
version value 1.0.0, so the output uniqueness stated by the claim
fails: validation is per-record and never compares incoming records
with each other. -/
theorem c1_counterexample :
    validate_version recA = .ok [] ∧
    mergeRun [recA, recA] [] = .ok [recA, recA] ∧
    ¬ ((mergeOut [recA, recA] []).filterMap versionString).Nodup := by
  refine ⟨rfl, rfl, ?_⟩
  decide

/-- C1 amended: when additionally the incoming version strings are
pairwise distinct (and, as the claim already asks, the existing ledger
has unique version strings), every successful merge again yields a
ledger with unique version strings. -/
theorem c1_amended_unique_versions (new existing out : List Json)
    (hnew : (new.filterMap versionString).Nodup)
    (hex : (existing.filterMap versionString).Nodup)
    (hok : mergeRun new existing = .ok out) :
    (out.filterMap versionString).Nodup := by
  have h1 : (new.map sortEntryArtifacts).filterMap versionString =
      new.filterMap versionString := incomingVersionStrings_map_sort new
  rw [mergeRun_ok_inv hok, List.filterMap_append, List.nodup_append]
  refine ⟨by rw [h1]; exact hnew, ?_, ?_⟩
  · exact ((List.filter_sublist existing).filterMap versionString).nodup hex
  · intro s hs1 hs2
    rw [h1] at hs1
    obtain ⟨v, hvmem, hvs⟩ := List.mem_filterMap.mp hs2
    obtain ⟨_, hkept⟩ := List.mem_filter.mp hvmem
    exact keptByDedup_versionString hkept hs1 hvs

/-- C1 witness: the amended theorem applied to a concrete merge of one
record with version 1.0.0 into a ledger holding version 2.0.0. -/
theorem c1_amended_witness :
    (([recA] : List Json).filterMap versionString).Nodup ∧
    (([recB] : List Json).filterMap versionString).Nodup ∧
    mergeRun [recA] [recB] = .ok [recA, recB] ∧
    (([recA, recB] : List Json).filterMap versionString).Nodup :=
  ⟨by decide, by decide, rfl,
    c1_amended_unique_versions [recA] [recB] [recA, recB] (by decide) (by decide) rfl⟩

/-- C2: a merge over an existing ledger whose records all carry a
version key writes exactly the incoming records first, in the order
supplied (each with its artifacts normalised in place), followed by
exactly those existing records whose version does not collide with any
incoming version string, in their original relative order; colliding
existing records are discarded. -/
theorem c2_merge_order (new existing : List Json)
    (hex : ∀ v ∈ existing, (versionOf v).isSome) :
    mergeRun new existing =
      .ok (new.map sortEntryArtifacts ++
        existing.filter (keptByDedup (new.filterMap versionString))) :=
  mergeRun_ok new existing hex

/-- C2 witness: the order theorem applied to a merge where the second
existing record collides (same version 1.0.0) and is discarded while
the first survives behind the incoming record. -/
theorem c2_merge_order_witness :
    (∀ v ∈ ([recB, recAold] : List Json), (versionOf v).isSome) ∧
    mergeRun [recA] [recB, recAold] = .ok [recA, recB] :=
  ⟨by decide, c2_merge_order [recA] [recB, recAold] (by decide)⟩

/-- C3: merging a record r (whose version is the string s) into any
ledger and merging it again into the result yields the same ledger
both times, and that ledger counts exactly one entry whose version
equals s: the second merge fully replaces the first. -/
theorem c3_idempotent_single_merge (r : Json) (L L1 L2 : List Json) (s : String)
    (hr : versionString r = some s)
    (h1 : mergeRun [r] L = .ok L1)
    (h2 : mergeRun [r] L1 = .ok L2) :
    L2 = L1 ∧ L2.countP (fun v => versionString v == some s) = 1 := by
  have e1 := mergeRun_ok_inv h1
  have e2 := mergeRun_ok_inv h2
  have hinc : ([r] : List Json).filterMap versionString = [s] := by
    simp [List.filterMap_cons, hr]
  rw [hinc] at e1 e2
  have hsubr : subscriptVersion (sortEntryArtifacts r) = .ok (.str s) := by
    rw [subscriptVersion_sortEntryArtifacts]
    exact subscriptVersion_of_versionString hr
  have hpr : keptByDedup [s] (sortEntryArtifacts r) = false := by
    unfold keptByDedup
    rw [hsubr]
    simp [jvMem]
  have hvr : versionString (sortEntryArtifacts r) = some s := by
    rw [versionString_sortEntryArtifacts]; exact hr
  have e3 : L1.filter (keptByDedup [s]) = L.filter (keptByDedup [s]) := by
    rw [e1, List.filter_append]
    simp [List.filter_cons, hpr, List.filter_filter]
  have hL2 : L2 = L1 := by
    rw [e2, e3, ← e1]
  refine ⟨hL2, ?_⟩
  rw [e2, e3, List.countP_append]
  have hc0 : (L.filter (keptByDedup [s])).countP
      (fun v => versionString v == some s) = 0 := by
    rw [List.countP_eq_zero]
    intro a ha
    have hne := keptByDedup_versionString (List.mem_filter.mp ha).2
      (List.mem_singleton.mpr rfl)
    simp only [beq_iff_eq]
    exact fun hh => hne hh
  rw [hc0]
  simp [List.map_cons, List.countP_cons, hvr]

/-- C3 witness: the idempotence theorem applied to a concrete double
merge of the version-1.0.0 record into a ledger holding version
2.0.0. -/
theorem c3_witness :
    versionString recA = some "1.0.0" ∧
    mergeRun [recA] [recB] = .ok [recA, recB] ∧
    mergeRun [recA] [recA, recB] = .ok [recA, recB] ∧
    ([recA, recB] : List Json) = [recA, recB] ∧
    (([recA, recB] : List Json).countP
      (fun v => versionString v == some "1.0.0")) = 1 := by
  have h := c3_idempotent_single_merge recA [recB] [recA, recB] [recA, recB]
    "1.0.0" rfl rfl rfl
  exact ⟨rfl, rfl, rfl, h.1, h.2⟩

/-- C4 counterexample: a merge that retains an existing record whose
stored artifacts are out of order writes that record unchanged, so the
sort invariant does not hold for every record of the written ledger:
the merge sorts only the artifacts of incoming records. -/
theorem c4_counterexample :
    mergeRun [recA] [recUnsorted] = .ok [recA, recUnsorted] ∧
    ¬ (∀ v ∈ mergeOut [recA] [recUnsorted], artifactsSortedB v = true) := by
  refine ⟨rfl, ?_⟩
  decide

/-- C4 amended: every incoming record is written with its artifacts
sorted by (platform, variant) ascending, and a retained existing record
keeps its stored artifact order; hence the sort invariant holds for the
whole written ledger provided every existing record already satisfied
it. -/
theorem c4_amended_sorted_preserved (new existing out : List Json)
    (hex : ∀ v ∈ existing, artifactsSortedB v = true)
    (hok : mergeRun new existing = .ok out) :
    ∀ v ∈ out, artifactsSortedB v = true := by
  rw [mergeRun_ok_inv hok]
  intro v hv
  rcases List.mem_append.mp hv with h | h
  · obtain ⟨w, _, hw⟩ := List.mem_map.mp h
    rw [← hw]
    exact artifactsSortedB_sortEntryArtifacts w
  · exact hex v (List.mem_filter.mp h).1

/-- C4 witness: the amended theorem applied to a concrete merge into a
ledger whose one record has sorted artifacts. -/
theorem c4_witness :
    (∀ v ∈ ([recB] : List Json), artifactsSortedB v = true) ∧
    mergeRun [recA] [recB] = .ok [recA, recB] ∧
    (∀ v ∈ ([recA, recB] : List Json), artifactsSortedB v = true) :=
  ⟨by decide, rfl, c4_amended_sorted_preserved [recA] [recB] [recA, recB] (by decide) rfl⟩

/-! ### Claims C5, C6, C10 -/

/-- An artifact that both lacks the url key and carries the invalid
archive_format value rar. -/
def artMissingUrl : Json := .obj
  [("platform", .str "linux"), ("variant", .str "default"),
   ("archive_format", .str "rar"), ("sha256", .str "abc")]

/-- A record whose single artifact is `artMissingUrl`. -/
def recMissingUrl : Json := .obj
  [("version", .str "1.0.0"), ("date", .str "2024-01-01"),
   ("artifacts", .arr [artMissingUrl])]

/-- The message list of a validation run, and the empty list on an
uncaught exception; used to state closed theorems about the messages. -/
def validationErrors (entry : Json) : List String :=
  match validate_version entry with
  | .ok l => l
  | .error _ => []

/-- C5 counterexample: an artifact missing the url key whose
archive_format is the invalid value rar is reported only for its
missing key; the error does not name the offending archive_format
value, because the loop skips the format check of an artifact with
missing keys. -/
theorem c5_counterexample :
    validArchiveFormat (.str "rar") = false ∧
    validate_version recMissingUrl = .ok [msgMissingKeys 0 ["url"]] ∧
    msgInvalidFormat 0 (.str "rar") ∉ validationErrors recMissingUrl := by
  refine ⟨rfl, rfl, ?_⟩
  decide

/-- A version entry built from a version string, a date string and an
artifact list, the shape the validator sees for a well-formed record. -/
def mkVersionEntry (version date : String) (arts : List Json) : Json :=
  .obj [("version", .str version), ("date", .str date),
        ("artifacts", .arr arts)]

/-- Modelled from the amended claim C5 (the claim side of the
refinement): the violations expected for artifact `i`.  An artifact
that is not an object is named as such; an artifact missing required
keys is rejected with one message naming exactly the missing keys in
sorted order, and its archive_format is not checked; an artifact with
all five keys whose archive_format is outside the valid set is rejected
with one message naming that offending value. -/
def claimedArtifactViolations (i : Nat) (a : Json) : List String :=
  match a with
  | .obj kvs =>
    if (requiredArtifactKeysSorted.filter
        (fun k => (lookupKvs kvs k).isNone)).isEmpty then
      match lookupKvs kvs "archive_format" with
      | some v => if validArchiveFormat v then [] else [msgInvalidFormat i v]
      | none => []
    else
      [msgMissingKeys i
        (requiredArtifactKeysSorted.filter (fun k => (lookupKvs kvs k).isNone))]
  | _ => [msgNotObject i]

/-- C5 amended: for a record whose version and date are non-empty
strings and whose artifact list is non-empty, the validator returns
exactly the aggregated per-artifact violations described by the amended
claim, across all artifacts in order. -/
theorem c5_amended_validation_messages (version date : String)
    (arts : List Json) (hv : version ≠ "") (hd : date ≠ "") (ha : arts ≠ []) :
    validate_version (mkVersionEntry version date arts) =
      .ok (arts.enum.flatMap (fun p => claimedArtifactViolations p.1 p.2)) := by
  have hart : ∀ i a, artifactErrors i a = claimedArtifactViolations i a := by
    intro i a
    cases a with
    | obj kvs =>
      simp only [artifactErrors, claimedArtifactViolations]
      cases hm : requiredArtifactKeysSorted.filter
          (fun k => (lookupKvs kvs k).isNone) with
      | nil => simp [hm]
      | cons x xs => simp [hm]
    | null => rfl
    | bool b => rfl
    | num n => rfl
    | str s => rfl
    | arr xs => rfl
  have hfun : (fun p : Nat × Json => artifactErrors p.1 p.2) =
      (fun p : Nat × Json => claimedArtifactViolations p.1 p.2) :=
    funext (fun p => hart p.1 p.2)
  cases arts with
  | nil => exact absurd rfl ha
  | cons a rest =>
    simp only [validate_version, mkVersionEntry, versionFieldErrors,
      dateFieldErrors, lookupKvs, artifactListErrors]
    simp [hv, hd, hfun]

/-- C5 witness: the amended theorem applied to the record whose single
artifact misses url and carries archive_format rar: the reported
messages are exactly the claimed ones. -/
theorem c5_amended_witness :
    ("1.0.0" : String) ≠ "" ∧ ("2024-01-01" : String) ≠ "" ∧
    ([artMissingUrl] : List Json) ≠ [] ∧
    validate_version (mkVersionEntry "1.0.0" "2024-01-01" [artMissingUrl]) =
      .ok (([artMissingUrl] : List Json).enum.flatMap
        (fun p => claimedArtifactViolations p.1 p.2)) :=
  ⟨by decide, by decide, by simp,
    c5_amended_validation_messages "1.0.0" "2024-01-01" [artMissingUrl]
      (by decide) (by decide) (by simp)⟩

/-- C6: a run whose stdin phase fails (no input, a malformed line, a
schema violation, or an uncaught validation exception) exits with
status 1 and the ledger file is exactly what it was; in general every
non-zero exit leaves the file unchanged, because the file is rewritten
only after every incoming line has parsed and validated. -/
theorem c6_no_partial_write (stdin : List Line) (file : Option (List Line)) :
    (∀ e, parseStdin stdin = .error e → mainRun stdin file = (1, file)) ∧
    ((mainRun stdin file).1 ≠ 0 → (mainRun stdin file).2 = file) := by
  constructor
  · intro e he
    unfold mainRun
    rw [he]
  · intro h
    cases hp : parseStdin stdin with
    | error e => simp [mainRun, hp]
    | ok nv =>
      cases hm : mergeRun nv (readExisting (file.getD [])) with
      | error e => simp [mainRun, hp, hm]
      | ok merged =>
        exfalso
        apply h
        simp [mainRun, hp, hm]

/-- C6 witness: the no-partial-write theorem applied to a run whose
first stdin line is unparseable, against a one-record ledger file. -/
theorem c6_witness :
    parseStdin [Line.invalid] = .error (.malformed 1) ∧
    mainRun [Line.invalid] (some [Line.value recB]) =
      (1, some [Line.value recB]) ∧
    (mainRun [Line.invalid] (some [Line.value recB])).1 ≠ 0 ∧
    (mainRun [Line.invalid] (some [Line.value recB])).2 =
      some [Line.value recB] := by
  have h := c6_no_partial_write [Line.invalid] (some [Line.value recB])
  exact ⟨rfl, h.1 (.malformed 1) rfl, by decide, h.2 (by decide)⟩

/-- C10: an existing ledger line that parses as JSON but is not an
object with a version key survives the tolerant read (which skips only
JSON-syntax failures), then crashes the deduplication subscript with
TypeError (non-object) or KeyError (object without the key), so the
run exits non-zero without touching the file. -/
theorem c10_structurally_invalid_existing :
    readExisting [Line.value (.num 5)] = [.num 5] ∧
    subscriptVersion (.num 5) = .error .typeError ∧
    subscriptVersion (.obj [("x", .null)]) = .error .keyError ∧
    mainRun [Line.value recA] (some [Line.value (.num 5)]) =
      (1, some [Line.value (.num 5)]) ∧
    mainRun [Line.value recA] (some [Line.value (.obj [("x", .null)])]) =
      (1, some [Line.value (.obj [("x", .null)])]) :=
  ⟨rfl, rfl, rfl, rfl, rfl⟩

/-! ### Claims C7, C8, C9 -/

theorem fetchFrom_sleeps_bound (resp : Nat → HttpResponse) :
    ∀ fuel attempt, (fetchFrom resp attempt fuel).2.length ≤ 3 - attempt
  | 0, attempt => by simp [fetchFrom]
  | fuel + 1, attempt => by
    have ih := fetchFrom_sleeps_bound resp fuel (attempt + 1)
    simp only [fetchFrom]
    split_ifs with h1 h2 h3
    · simp
    · obtain ⟨h3a, h3b⟩ := h3
      simp only [List.length_cons]
      omega
    · simp
    · cases pySplit (pyStrip (resp attempt).body) <;> simp

/-- C7: the checksum fetch returns no-checksum at once on a 404 with no
sleeping; when every attempt answers 502, 503 or 504 it performs
exactly three attempts with sleeps of 2 then 4 seconds (the delay
doubles per attempt) and then gives up with no-checksum; any other
error status gives up at once; no run of the loop ever sleeps more
than twice; and an artifact whose fetch yields no checksum is dropped
with a warning while processing continues over the remaining
artifacts. -/
theorem c7_fetch_retry_policy (resp : Nat → HttpResponse) :
    ((resp 1).status = 404 → fetch_sha256 resp = (.noval, [])) ∧
    ((resp 1).status ∈ ([502, 503, 504] : List Nat) →
      (resp 2).status ∈ ([502, 503, 504] : List Nat) →
      (resp 3).status ∈ ([502, 503, 504] : List Nat) →
      fetch_sha256 resp = (.noval, [2, 4])) ∧
    (raisesForStatus (resp 1).status = true → (resp 1).status ≠ 404 →
      (resp 1).status ∉ ([502, 503, 504] : List Nat) →
      fetch_sha256 resp = (.noval, [])) ∧
    ((fetch_sha256 resp).2.length ≤ 2) ∧
    (∀ (ctx : ExtractCtx) (client : String → Nat → HttpResponse)
        (name : String) (rest : List String) (platform : String)
        (sleeps : List Nat),
      artifactSkipped ctx.app_name name = false →
      platformOf ctx.app_name name = some platform →
      fetch_sha256 (client (downloadUrl ctx name ++ ".sha256")) =
        (.noval, sleeps) →
      processArtifacts ctx client (name :: rest) =
        (processArtifacts ctx client rest).map
          (fun p => (p.1, shaWarning name :: p.2))) := by
  refine ⟨?_, ?_, ?_, ?_, ?_⟩
  · intro h404
    simp [fetch_sha256, fetchFrom, h404]
  · intro h1 h2 h3
    simp only [List.mem_cons, List.mem_singleton, List.not_mem_nil,
      or_false] at h1 h2 h3
    rcases h1 with h1 | h1 | h1 <;> rcases h2 with h2 | h2 | h2 <;>
      rcases h3 with h3 | h3 | h3 <;>
      simp [fetch_sha256, fetchFrom, raisesForStatus, h1, h2, h3]
  · intro hr h404 hmem
    simp only [List.mem_cons, List.mem_singleton, List.not_mem_nil,
      or_false] at hmem
    push_neg at hmem
    obtain ⟨m2, m3, m4⟩ := hmem
    simp [fetch_sha256, fetchFrom, h404, hr, m2, m3, m4]
  · simpa [fetch_sha256] using fetchFrom_sleeps_bound resp 3 1
  · intro ctx client name rest platform sleeps hskip hplat hf
    simp only [processArtifacts, hskip, Bool.false_eq_true, if_false,
      hplat, hf]
    cases hrest : processArtifacts ctx client rest with
    | error e => simp [Except.map]
    | ok pr =>
      obtain ⟨arts, warns⟩ := pr
      simp [Except.map]

/-- A client that always answers 404. -/
def resp404 : Nat → HttpResponse := fun _ => { status := 404, body := "" }

/-- A client that always answers 502. -/
def resp502 : Nat → HttpResponse := fun _ => { status := 502, body := "" }

/-- A client that always answers 500. -/
def resp500 : Nat → HttpResponse := fun _ => { status := 500, body := "" }

/-- The loop identity of a run over the app uv at tag v1.0.0. -/
def warnCtx : ExtractCtx :=
  { app_name := "uv", github_org := "astral-sh", github_repo := "uv",
    version := "v1.0.0" }

/-- A URL-indexed client that always answers 404. -/
def client404 : String → Nat → HttpResponse :=
  fun _ _ => { status := 404, body := "" }

/-- C7 witness: the retry-policy theorem applied at the all-404, the
all-502 and the all-500 clients, and the drop-with-warning part applied
at one concrete artifact. -/
theorem c7_witness :
    (resp404 1).status = 404 ∧ fetch_sha256 resp404 = (.noval, []) ∧
    fetch_sha256 resp502 = (.noval, [2, 4]) ∧
    raisesForStatus (resp500 1).status = true ∧
    fetch_sha256 resp500 = (.noval, []) ∧
    (fetch_sha256 resp500).2.length ≤ 2 ∧
    processArtifacts warnCtx client404 ["uv-linux.tar.gz"] =
      .ok ([], [shaWarning "uv-linux.tar.gz"]) := by
  have h1 := (c7_fetch_retry_policy resp404).1 rfl
  have h2 := (c7_fetch_retry_policy resp502).2.1 (by decide) (by decide)
    (by decide)
  have h3 := (c7_fetch_retry_policy resp500).2.2.1 (by decide) (by decide)
    (by decide)
  have h4 := (c7_fetch_retry_policy resp500).2.2.2.1
  have h5 := (c7_fetch_retry_policy resp404).2.2.2.2 warnCtx client404
    "uv-linux.tar.gz" [] "linux" [] rfl rfl rfl
  exact ⟨rfl, h1, h2, rfl, h3, h4, h5⟩

/-- The tar.gz artifact name of the C8 scenario. -/
def uvTar : String := "uv-x86_64-unknown-linux-gnu.tar.gz"

/-- The manifest of the C8 scenario: tag v1.0.0, one release uv with
the archive and its checksum sidecar, no announcement body. -/
def uvManifest : Manifest :=
  { announcement_tag := "v1.0.0", announcement_github_body := none,
    releases := [{ app_name := "uv",
                   artifacts := [uvTar, uvTar ++ ".sha256"] }] }

/-- The checksum sidecar URL the Normalizer fetches in the C8
scenario. -/
def uvShaUrl : String :=
  "https://github.com/astral-sh/uv/releases/download/v1.0.0/" ++ uvTar ++
    ".sha256"

/-- The C8 client: the checksum URL answers 200 with the two-token
checksum body; everything else answers 404. -/
def uvClient : String → Nat → HttpResponse := fun url _ =>
  if url = uvShaUrl then
    { status := 200, body := "deadbeef  uv-x86_64-unknown-linux-gnu.tar.gz" }
  else { status := 404, body := "" }

/-- A body-search oracle for manifests with no announcement body. -/
def noSearch : String → Option (String × String) := fun _ => none

/-- The one artifact the C8 scenario is expected to produce. -/
def uvExpectedArtifact : Artifact :=
  { platform := "x86_64-unknown-linux-gnu", variant := "default",
    url := "https://github.com/astral-sh/uv/releases/download/v1.0.0/uv-x86_64-unknown-linux-gnu.tar.gz",
    archive_format := "tar.gz", sha256 := "deadbeef" }

/-- C8: on the scenario manifest the Normalizer produces exactly one
artifact, with platform x86_64-unknown-linux-gnu (the app-name prefix
and the extension stripped from the filename), archive_format tar.gz,
and sha256 deadbeef (the first whitespace-delimited token of the
checksum body); the sidecar artifact name itself is filtered out and
no warning is emitted. -/
theorem c8_scenario :
    extract_version_info noSearch uvClient "2024-01-01T00:00:00+00:00"
        uvManifest =
      .ok ({ version := "v1.0.0", date := "2024-01-01T00:00:00+00:00",
             artifacts := [uvExpectedArtifact] }, ([] : List String)) := by
  rfl

/-- A client whose responses are successful but whose body holds only
whitespace. -/
def blankClient : String → Nat → HttpResponse :=
  fun _ _ => { status := 200, body := "  " }

/-- C9: a checksum response with a success status and a
whitespace-only body makes fetch_sha256 take the first element of an
empty token list, an uncaught IndexError, and the whole extraction run
aborts with that error instead of dropping the artifact with a
warning. -/
theorem c9_empty_body_index_error :
    fetch_sha256 (blankClient uvShaUrl) = (.idxErr, []) ∧
    extract_version_info noSearch blankClient "2024-01-01T00:00:00+00:00"
        uvManifest = .error .indexError := by
  exact ⟨rfl, rfl⟩
